import Mathlib

/-!
Verification of `src/pre_commit_hooks/branch_check.py` (gpsgate/pre-commit-hook-branch-check).

The Python program is embedded shallowly:
* Python's `re.match` (anchored at the start of the string, i.e. the pattern must
  match some prefix of the input) is modelled by a small regular-expression AST
  `Regex` with an executable matcher `accept`/`reMatch`.
* The process environment and the git subprocess results are modelled by
  explicit `Env` and `GitWorld` records; a run returns an `Outcome` (normal
  return with exit code and printed message, or an unhandled Python exception)
  together with the list of attempted git invocations.
-/

namespace BranchCheck

/-! ## Regular expressions: model of Python `re` as used by `re.match`

Constructors: `eps` (empty string), `cls p` (single character satisfying `p`,
covering literal characters and character classes), `cat`, `alt`, `star`, and
`eos` for the `$` anchor (matches only at the end of the whole input).  A
leading `^` is a no-op under `re.match` (which is already anchored at the
start) and is therefore not represented. -/
inductive Regex where
  | eps
  | cls (p : Char → Bool)
  | cat (a b : Regex)
  | alt (a b : Regex)
  | star (a : Regex)
  | eos

/-- Iterate one step of a Kleene star: from input `s`, zero iterations leave
`s`; otherwise run the body (`f`), keep only remainders that strictly shrank
(a zero-width iteration reaches no new remainder), and continue.  The fuel
bounds the recursion depth; `length + 1` is always enough since every kept
remainder is strictly shorter. -/
def acceptStar (f : List Char → List (List Char)) : Nat → List Char → List (List Char)
  | 0, s => [s]
  | Nat.succ n, s =>
    [s] ++ (((f s).filter fun r => r.length < s.length).map fun r => acceptStar f n r).flatten

/-- `accept r s` returns the list of possible remainders of `s` after `r`
matched some prefix of `s`.  `re.match r s` succeeds iff this list is
nonempty (when `s` is the whole input). -/
def accept : Regex → List Char → List (List Char)
  | .eps, s => [s]
  | .cls _, [] => []
  | .cls p, c :: rest => if p c then [rest] else []
  | .eos, [] => [[]]
  | .eos, _ :: _ => []
  | .cat a b, s => ((accept a s).map fun t => accept b t).flatten
  | .alt a b, s => accept a s ++ accept b s
  | .star a, s => acceptStar (fun t => accept a t) (s.length + 1) s

/-- Model of Python `re.match(r, s)` being truthy: `r` matches a prefix of `s`. -/
def reMatch (r : Regex) (s : String) : Bool := !(accept r s.data).isEmpty

/-- A single literal character. -/
def chr (c : Char) : Regex := .cls fun d => d == c

/-- A literal string, as a concatenation of its characters. -/
def lit (s : String) : Regex := s.data.foldr (fun c r => .cat (chr c) r) .eps

/-- The character class `[a-z0-9]`. -/
def lowerNum (c : Char) : Bool := ('a' ≤ c && c ≤ 'z') || ('0' ≤ c && c ≤ '9')

/-- The character class `[a-z0-9/.-]`. -/
def branchChar (c : Char) : Bool := lowerNum c || c == '/' || c == '.' || c == '-'

/-- Hand-compiled form of `'^(feature|bugfix|hotfix|release|chore)/[a-z0-9/.-]*[a-z0-9]$'`
(the leading `^` is redundant under `re.match`). -/
def conventionalRegex : Regex :=
  .cat (.alt (lit "feature") (.alt (lit "bugfix") (.alt (lit "hotfix")
        (.alt (lit "release") (lit "chore")))))
    (.cat (chr '/') (.cat (.star (.cls branchChar)) (.cat (.cls lowerNum) .eos)))

/-- Hand-compiled form of `'^(main|master|develop)$'`. -/
def mainBranchRegex : Regex :=
  .cat (.alt (lit "main") (.alt (lit "master") (lit "develop"))) .eos

/-- A pattern as it flows through the program: the source string (used for
message rendering, as Python prints the raw pattern strings) together with
its compilation result (`none` models an unparseable regex, on which
`re.match` raises `re.error`). -/
structure Pattern where
  src : String
  compiled : Option Regex

/-- `DEFAULT_ALLOWED_PATTERNS` from the source (lines 11-14). -/
def DEFAULT_ALLOWED_PATTERNS : List String :=
  ["^(feature|bugfix|hotfix|release|chore)/[a-z0-9/.-]*[a-z0-9]$",
   "^(main|master|develop)$"]

/-- `DEFAULT_DENIED_PATTERNS` from the source (line 15). -/
def DEFAULT_DENIED_PATTERNS : List String := []

/-- A compilation oracle for the concrete runs in this development: the two
default pattern strings compile to their hand-compiled ASTs, anything else is
treated as failing to compile. -/
def defaultCompile (s : String) : Option Regex :=
  if s == "^(feature|bugfix|hotfix|release|chore)/[a-z0-9/.-]*[a-z0-9]$" then
    some conventionalRegex
  else if s == "^(main|master|develop)$" then some mainBranchRegex
  else none

/-! ## Environment and git world -/

/-- The CI environment variables consulted by `get_forge_branch` (lines 29-33),
`none` meaning unset. -/
structure Env where
  GITHUB_HEAD_REF : Option String
  CI_MERGE_REQUEST_SOURCE_BRANCH_NAME : Option String
  BITBUCKET_BRANCH : Option String

/-- The two read-only git subcommands the program may run. -/
inductive GitCmd where
  | symbolicRef   -- `git symbolic-ref --short HEAD`
  | nameRev       -- `git name-rev --name-only HEAD`
deriving DecidableEq

/-- Model of the git side of the world: whether the `git` executable exists on
the search path (`subprocess` raises `FileNotFoundError` otherwise), and the
result of each subcommand — `none` for a nonzero exit status
(`CalledProcessError`), `some out` for success with decoded, stripped output
`out`. -/
structure GitWorld where
  gitAvailable : Bool
  symbolicRef : Option String
  nameRev : Option String

/-- The Python exceptions that can escape or be caught during a run. -/
inductive PyError where
  /-- `RuntimeError(msg)`, raised by `get_branch_name` and caught in `main`. -/
  | runtimeError (msg : String)
  /-- `UnboundLocalError`: a local variable referenced before assignment. -/
  | unboundLocal
  /-- `FileNotFoundError`: the `git` executable is missing. -/
  | fileNotFound
  /-- `re.error`: an unparseable regular expression reached `re.match`. -/
  | reError
deriving DecidableEq

/-! ## Branch resolution -/

/-- `get_forge_branch` (lines 17-38): return the first non-empty value among
the CI variables, in the fixed order GITHUB_HEAD_REF,
CI_MERGE_REQUEST_SOURCE_BRANCH_NAME, BITBUCKET_BRANCH; `''` when none is set
to a non-empty value (Python `if branch_name:` skips both unset and empty). -/
def firstNonEmpty : List (Option String) → String
  | [] => ""
  | none :: rest => firstNonEmpty rest
  | some s :: rest => if s = "" then firstNonEmpty rest else s

def get_forge_branch (e : Env) : String :=
  firstNonEmpty [e.GITHUB_HEAD_REF, e.CI_MERGE_REQUEST_SOURCE_BRANCH_NAME, e.BITBUCKET_BRANCH]

/-- Model of Python `s.startswith(p)`: `hasStart s p` is true iff `s` begins
with `p`. -/
def hasStart : List Char → List Char → Bool
  | _, [] => true
  | [], _ :: _ => false
  | c :: s, d :: p => c == d && hasStart s p

/-- Model of Python `s.split('/')`: split on every `'/'`, keeping empty
segments (`''.split('/') == ['']`). -/
def splitSlash : List Char → List (List Char)
  | [] => [[]]
  | c :: rest =>
    if c = '/' then [] :: splitSlash rest
    else
      match splitSlash rest with
      | [] => [[c]]
      | g :: gs => (c :: g) :: gs

/-- Model of Python `'/'.join(xs)`. -/
def joinSlash : List (List Char) → List Char
  | [] => []
  | [g] => g
  | g :: gs => g ++ '/' :: joinSlash gs

/-- Lines 64-65: `'/'.join(ref_name.split('/')[2:])`. -/
def dropTwoSegments (r : String) : String :=
  String.mk (joinSlash ((splitSlash r.data).drop 2))

/-- `get_branch_name` (lines 39-71), as a function of the git world.  Returns
the branch name or the escaping exception, together with the list of git
subcommands it attempted to run (in order).

Faithful to the source, including its slips: when `symbolic-ref` succeeds
with empty output, line 70's f-string reads the never-assigned local
`ref_name` (`UnboundLocalError`); when `name-rev` succeeds but its output
starts with neither `remotes/` nor `refs/`, the local `branch_name` is never
assigned and line 69 raises `UnboundLocalError`; when `git` is absent,
`FileNotFoundError` escapes (only `CalledProcessError` is caught). -/
def get_branch_name (w : GitWorld) : Except PyError String × List GitCmd :=
  if w.gitAvailable = false then
    (.error .fileNotFound, [.symbolicRef])
  else
    match w.symbolicRef with
    | some branch_name =>
      if branch_name = "" then (.error .unboundLocal, [.symbolicRef])
      else (.ok branch_name, [.symbolicRef])
    | none =>
      match w.nameRev with
      | none =>
        (.error (.runtimeError
          "Error: failed to determine the branch name. Are you in a git repository?"),
         [.symbolicRef, .nameRev])
      | some ref_name =>
        if (hasStart ref_name.data "remotes/".data || hasStart ref_name.data "refs/".data) then
          let branch_name := dropTwoSegments ref_name
          if branch_name = "" then
            (.error (.runtimeError
              ("Error: cannot analyze branch name out of " ++ ref_name ++ "!")),
             [.symbolicRef, .nameRev])
          else (.ok branch_name, [.symbolicRef, .nameRev])
        else (.error .unboundLocal, [.symbolicRef, .nameRev])

/-- Lines 114-116 (inside the `try`): take the forge branch when non-empty,
otherwise fall back to `get_branch_name`. -/
def resolveBranch (e : Env) (w : GitWorld) : Except PyError String × List GitCmd :=
  let branch_name := get_forge_branch e
  if branch_name = "" then get_branch_name w else (.ok branch_name, [])

/-! ## Pattern evaluation (lines 121-130) -/

/-- `re.match(p, b)` truthiness for one pattern of the program, `false` when
the pattern does not match; an unparseable pattern has no match semantics
(this helper is only consulted for compiled patterns). -/
def patMatch (p : Pattern) (b : String) : Bool :=
  match p.compiled with
  | some r => reMatch r b
  | none => false

/-- Model of `any(re.match(pattern, branch_name) for pattern in patterns)`:
patterns are tried left to right, stopping at the first match; reaching an
unparseable pattern raises `re.error`. -/
def anyREMatch (pats : List Pattern) (b : String) : Except PyError Bool :=
  match pats with
  | [] => .ok false
  | p :: ps =>
    match p.compiled with
    | none => .error .reError
    | some r => if reMatch r b then .ok true else anyREMatch ps b

/-- Python `repr` of a list of pattern strings, as printed by the f-strings of
lines 123 and 127 (the patterns used contain no quotes or escapes). -/
def pyStrListRepr (xs : List String) : String :=
  "[" ++ String.intercalate ", " (xs.map fun s => "'" ++ s ++ "'") ++ "]"

/-- Line 129's message. -/
def validMsg (b : String) : String := "Branch name \"" ++ b ++ "\" is valid."

/-- Line 123's message. -/
def notAllowedMsg (b : String) (pats : List Pattern) : String :=
  "Branch name \"" ++ b ++ "\" does not match any of the allowed patterns: " ++
    pyStrListRepr (pats.map Pattern.src)

/-- Line 127's message. -/
def deniedMsg (b : String) (pats : List Pattern) : String :=
  "Branch name \"" ++ b ++ "\" matches a denied pattern: " ++
    pyStrListRepr (pats.map Pattern.src)

/-- The observable outcome of one invocation: a normal return from `main`
(exit code and the message printed to stdout), or an unhandled Python
exception (the interpreter then prints a traceback and exits with status 1). -/
inductive Outcome where
  | exit (code : Nat) (msg : String)
  | crash (e : PyError)
deriving DecidableEq

/-- The process exit status an `Outcome` produces (an unhandled exception
makes the interpreter exit with status 1). -/
def exitStatus : Outcome → Nat
  | .exit c _ => c
  | .crash _ => 1

/-- Lines 121-130: the allow check (short-circuiting, reported first), then —
only if it passed — the deny check. -/
def checkPhase (allow deny : List Pattern) (b : String) : Outcome :=
  match anyREMatch allow b with
  | .error err => .crash err
  | .ok false => .exit 1 (notAllowedMsg b allow)
  | .ok true =>
    match anyREMatch deny b with
    | .error err => .crash err
    | .ok true => .exit 1 (deniedMsg b deny)
    | .ok false => .exit 0 (validMsg b)

/-! ## Argument parsing (lines 90-108)

Model of the `argparse` parser built in `main`: repeatable `--allow VALUE`
(short form `-a`) and `--deny VALUE` (short form `-d`) options (separate-token
and `--opt=value` forms), `--help` and `-h` printing help and exiting with
status 0, and any other argument
producing a usage error: `argparse` prints the usage text and exits with
status 2 (`SystemExit(2)`).  A value token starting with `-` is refused as
"expected one argument", as `argparse` does for this option set.  Long-option
abbreviation and clustered short options are not modelled; no claim depends
on them. -/

inductive ParseResult where
  | ok (allow deny : Option (List String))
  | helpExit
  | usageError (msg : String)
deriving DecidableEq

/-- Append one occurrence's value to an `append`-action accumulator
(`argparse` starts from `None` and grows a list). -/
def appendArg (acc : Option (List String)) (v : String) : Option (List String) :=
  some (acc.getD [] ++ [v])

def parseArgsAux : List String → Option (List String) → Option (List String) → ParseResult
  | [], a, d => .ok a d
  | arg :: rest, a, d =>
    if arg = "-h" || arg = "--help" then .helpExit
    else if arg = "-a" || arg = "--allow" then
      match rest with
      | [] => .usageError "argument -a/--allow: expected one argument"
      | v :: rest2 =>
        if hasStart v.data ['-'] then .usageError "argument -a/--allow: expected one argument"
        else parseArgsAux rest2 (appendArg a v) d
    else if hasStart arg.data "--allow=".data then
      parseArgsAux rest (appendArg a (arg.drop 8)) d
    else if arg = "-d" || arg = "--deny" then
      match rest with
      | [] => .usageError "argument -d/--deny: expected one argument"
      | v :: rest2 =>
        if hasStart v.data ['-'] then .usageError "argument -d/--deny: expected one argument"
        else parseArgsAux rest2 a (appendArg d v)
    else if hasStart arg.data "--deny=".data then
      parseArgsAux rest a (appendArg d (arg.drop 7))
    else .usageError ("unrecognized arguments: " ++ arg)

def parseArgs (argv : List String) : ParseResult := parseArgsAux argv none none

/-- Line 109/110: Python `x or default` on an `argparse` result (`None` and
the empty list are both falsy). -/
def pyOr (xs : Option (List String)) (dflt : List String) : List String :=
  match xs with
  | none => dflt
  | some l => if l = [] then dflt else l

/-! ## `main` (lines 74-130) -/

/-- Pair each pattern string with its compilation result, as `re.match` sees
it inside the generator expressions of lines 122 and 126. -/
def compiledPatterns (compile : String → Option Regex) (strs : List String) : List Pattern :=
  strs.map fun s => Pattern.mk s (compile s)

/-- `main` (lines 74-130), as a function of a regex-compilation oracle
`compile` (the model of `re`'s pattern compiler, applied where `re.match`
would first compile each pattern string), the argument vector and the world.
Returns the outcome together with the attempted git invocations.  The `try`
of lines 113-119 catches `RuntimeError` only, printing its message and
returning 1; every other exception escapes. -/
def main (compile : String → Option Regex) (argv : List String) (e : Env) (w : GitWorld) :
    Outcome × List GitCmd :=
  match parseArgs argv with
  | .helpExit => (.exit 0 "help", [])
  | .usageError m => (.exit 2 ("usage: branch_check [-h] [-a ALLOW] [-d DENY]\nbranch_check: error: " ++ m), [])
  | .ok a d =>
    let allow_patterns := compiledPatterns compile (pyOr a DEFAULT_ALLOWED_PATTERNS)
    let deny_patterns := compiledPatterns compile (pyOr d DEFAULT_DENIED_PATTERNS)
    let res := resolveBranch e w
    match res.1 with
    | .error (.runtimeError m) => (.exit 1 m, res.2)
    | .error err => (.crash err, res.2)
    | .ok branch_name => (checkPhase allow_patterns deny_patterns branch_name, res.2)

/-- The environment with none of the CI variables set. -/
def envEmpty : Env := ⟨none, none, none⟩

/-! ## Helper lemmas -/

lemma anyREMatch_eq_ok (b : String) (pats : List Pattern)
    (h : ∀ p ∈ pats, p.compiled.isSome = true) :
    anyREMatch pats b = .ok (pats.any fun p => patMatch p b) := by
  induction pats with
  | nil => rfl
  | cons p ps ih =>
    obtain ⟨r, hr⟩ := Option.isSome_iff_exists.mp (h p (List.mem_cons_self p ps))
    have hm : patMatch p b = reMatch r b := by simp [patMatch, hr]
    by_cases hrb : reMatch r b = true
    · simp [anyREMatch, hr, hrb, hm]
    · simp only [Bool.not_eq_true] at hrb
      simp [anyREMatch, hr, hrb, hm, ih fun q hq => h q (List.mem_cons_of_mem _ hq)]

lemma anyREMatch_reaches_invalid (b : String) (pre : List Pattern) (bad : Pattern)
    (post : List Pattern) (hbad : bad.compiled = none)
    (hpre : ∀ p ∈ pre, p.compiled.isSome = true ∧ patMatch p b = false) :
    anyREMatch (pre ++ bad :: post) b = .error .reError := by
  induction pre with
  | nil => simp [anyREMatch, hbad]
  | cons p ps ih =>
    obtain ⟨hs, hm⟩ := hpre p (List.mem_cons_self p ps)
    obtain ⟨r, hr⟩ := Option.isSome_iff_exists.mp hs
    have hrb : reMatch r b = false := by simpa [patMatch, hr] using hm
    simp [anyREMatch, hr, hrb, ih fun q hq => hpre q (List.mem_cons_of_mem _ hq)]

lemma checkPhase_spec (allow deny : List Pattern) (b : String)
    (hva : ∀ p ∈ allow, p.compiled.isSome = true)
    (hvd : ∀ p ∈ deny, p.compiled.isSome = true) :
    checkPhase allow deny b =
      if allow.any (fun p => patMatch p b) then
        if deny.any (fun p => patMatch p b) then .exit 1 (deniedMsg b deny)
        else .exit 0 (validMsg b)
      else .exit 1 (notAllowedMsg b allow) := by
  unfold checkPhase
  rw [anyREMatch_eq_ok b allow hva, anyREMatch_eq_ok b deny hvd]
  cases h1 : allow.any fun p => patMatch p b <;>
    cases h2 : deny.any fun p => patMatch p b <;> simp

/-- Unfolding of `main` once the arguments parsed. -/
lemma main_parse_ok (compile : String → Option Regex) (argv : List String) (e : Env)
    (w : GitWorld) (a d : Option (List String)) (hp : parseArgs argv = .ok a d) :
    main compile argv e w =
      (match (resolveBranch e w).1 with
       | .error (.runtimeError m) => Outcome.exit 1 m
       | .error err => .crash err
       | .ok branch_name =>
         checkPhase (compiledPatterns compile (pyOr a DEFAULT_ALLOWED_PATTERNS))
           (compiledPatterns compile (pyOr d DEFAULT_DENIED_PATTERNS)) branch_name,
       (resolveBranch e w).2) := by
  unfold main
  rw [hp]
  cases hr : (resolveBranch e w).1 with
  | ok b => simp [hr]
  | error err => cases err <;> simp [hr]

/-- Unfolding of `main` once the branch name resolved. -/
lemma main_resolved (compile : String → Option Regex) (argv : List String) (e : Env)
    (w : GitWorld) (a d : Option (List String)) (b : String)
    (hp : parseArgs argv = .ok a d) (hres : (resolveBranch e w).1 = .ok b) :
    main compile argv e w =
      (checkPhase (compiledPatterns compile (pyOr a DEFAULT_ALLOWED_PATTERNS))
         (compiledPatterns compile (pyOr d DEFAULT_DENIED_PATTERNS)) b,
       (resolveBranch e w).2) := by
  rw [main_parse_ok compile argv e w a d hp, hres]

lemma main_usage (compile : String → Option Regex) (argv : List String) (e : Env)
    (w : GitWorld) (m : String) (hp : parseArgs argv = .usageError m) :
    main compile argv e w =
      (.exit 2 ("usage: branch_check [-h] [-a ALLOW] [-d DENY]\nbranch_check: error: " ++ m),
       []) := by
  unfold main
  rw [hp]

lemma hasStart_append (p s : List Char) : hasStart (p ++ s) p = true := by
  induction p with
  | nil => cases s <;> rfl
  | cons c p ih => simp [hasStart, ih]

lemma splitSlash_ne_nil (s : List Char) : splitSlash s ≠ [] := by
  cases s with
  | nil => simp [splitSlash]
  | cons c rest =>
    unfold splitSlash
    split
    · simp
    · split <;> simp

lemma splitSlash_slashFree_append (x y : List Char) (hx : '/' ∉ x) :
    splitSlash (x ++ '/' :: y) = x :: splitSlash y := by
  induction x with
  | nil =>
    show splitSlash ('/' :: y) = [] :: splitSlash y
    rw [splitSlash]
    simp
  | cons c x ih =>
    have hc : c ≠ '/' := fun h => hx (h ▸ List.mem_cons_self c x)
    have hx' : '/' ∉ x := fun h => hx (List.mem_cons_of_mem c h)
    show splitSlash (c :: (x ++ '/' :: y)) = (c :: x) :: splitSlash y
    rw [splitSlash, if_neg hc, ih hx']

lemma joinSlash_cons_cons (a b : List Char) (l : List (List Char)) :
    joinSlash (a :: b :: l) = a ++ '/' :: joinSlash (b :: l) := rfl

lemma joinSlash_splitSlash (s : List Char) : joinSlash (splitSlash s) = s := by
  induction s with
  | nil => rfl
  | cons c rest ih =>
    by_cases h : c = '/'
    · rw [splitSlash, if_pos h]
      cases hs : splitSlash rest with
      | nil => exact absurd hs (splitSlash_ne_nil rest)
      | cons g gs =>
        rw [joinSlash_cons_cons, ← hs, ih, h]
        simp
    · rw [splitSlash, if_neg h]
      cases hs : splitSlash rest with
      | nil => exact absurd hs (splitSlash_ne_nil rest)
      | cons g gs =>
        rw [hs] at ih
        cases gs with
        | nil =>
          show joinSlash [c :: g] = c :: rest
          simp only [joinSlash] at ih ⊢
          rw [ih]
        | cons g2 gs2 =>
          show joinSlash ((c :: g) :: g2 :: gs2) = c :: rest
          rw [joinSlash_cons_cons, ← ih, joinSlash_cons_cons]
          simp

lemma data_slash : ("/" : String).data = ['/'] := rfl

lemma dropTwoSegments_eq (a b c : String) (ha : '/' ∉ a.data) (hb : '/' ∉ b.data) :
    dropTwoSegments (a ++ "/" ++ b ++ "/" ++ c) = c := by
  unfold dropTwoSegments
  have hdata : (a ++ "/" ++ b ++ "/" ++ c).data =
      a.data ++ '/' :: (b.data ++ '/' :: c.data) := by
    simp [String.data_append, data_slash]
  rw [hdata, splitSlash_slashFree_append _ _ ha, splitSlash_slashFree_append _ _ hb]
  simp only [List.drop_succ_cons, List.drop_zero]
  rw [joinSlash_splitSlash]

lemma appendArg_ne_nil (acc : Option (List String)) (v : String) :
    ∀ l, appendArg acc v = some l → l ≠ [] := by
  intro l hl
  simp only [appendArg, Option.some.injEq] at hl
  subst hl
  simp

/-- The `append`-action accumulators of the parser stay `none` or nonempty:
`argparse` yields a list exactly when at least one occurrence was given. -/
lemma parseArgsAux_bounded_some_ne_nil (n : Nat) :
    ∀ (args : List String), args.length ≤ n → ∀ (a d : Option (List String)),
    (∀ l, a = some l → l ≠ []) → (∀ l, d = some l → l ≠ []) →
    ∀ a' d', parseArgsAux args a d = .ok a' d' →
    (∀ l, a' = some l → l ≠ []) ∧ (∀ l, d' = some l → l ≠ []) := by
  induction n with
  | zero =>
    intro args hlen a d ha hd a' d' h
    have hargs : args = [] := List.length_eq_zero.mp (Nat.le_zero.mp hlen)
    subst hargs
    simp only [parseArgsAux, ParseResult.ok.injEq] at h
    exact h.1 ▸ h.2 ▸ ⟨ha, hd⟩
  | succ n ih =>
    intro args hlen a d ha hd a' d' h
    match args with
    | [] =>
      simp only [parseArgsAux, ParseResult.ok.injEq] at h
      exact h.1 ▸ h.2 ▸ ⟨ha, hd⟩
    | arg :: rest =>
      match rest with
      | [] =>
        simp only [parseArgsAux] at h
        split_ifs at h
        all_goals
          first
          | exact ParseResult.noConfusion h
          | (simp only [ParseResult.ok.injEq] at h
             exact ⟨h.1 ▸ appendArg_ne_nil _ _, h.2 ▸ hd⟩)
          | (simp only [ParseResult.ok.injEq] at h
             exact ⟨h.1 ▸ ha, h.2 ▸ appendArg_ne_nil _ _⟩)
      | v :: rest2 =>
        simp only [parseArgsAux] at h
        split_ifs at h
        all_goals
          first
          | exact ParseResult.noConfusion h
          | exact ih rest2 (by simp only [List.length_cons] at hlen; omega) _ _
              (appendArg_ne_nil _ _) hd a' d' h
          | exact ih rest2 (by simp only [List.length_cons] at hlen; omega) _ _
              ha (appendArg_ne_nil _ _) a' d' h
          | exact ih (v :: rest2) (by simp only [List.length_cons] at hlen ⊢; omega) _ _
              (appendArg_ne_nil _ _) hd a' d' h
          | exact ih (v :: rest2) (by simp only [List.length_cons] at hlen ⊢; omega) _ _
              ha (appendArg_ne_nil _ _) a' d' h

lemma parseArgs_some_ne_nil (argv : List String) (a d : Option (List String))
    (h : parseArgs argv = .ok a d) :
    (∀ l, a = some l → l ≠ []) ∧ (∀ l, d = some l → l ≠ []) :=
  parseArgsAux_bounded_some_ne_nil argv.length argv le_rfl none none
    (by simp) (by simp) a d h

lemma compiledPatterns_valid (compile : String → Option Regex) (strs : List String)
    (h : ∀ s ∈ strs, (compile s).isSome = true) :
    ∀ p ∈ compiledPatterns compile strs, p.compiled.isSome = true := by
  intro p hp
  obtain ⟨s, hs, rfl⟩ := List.mem_map.mp hp
  exact h s hs

lemma compiledPatterns_any (compile : String → Option Regex) (strs : List String) (b : String) :
    ((compiledPatterns compile strs).any fun p => patMatch p b) =
      strs.any fun s => patMatch (Pattern.mk s (compile s)) b := by
  induction strs with
  | nil => rfl
  | cons s ss ih =>
    simp only [compiledPatterns, List.map_cons, List.any_cons] at ih ⊢
    rw [ih]

/-! ## Claims -/

/-- C1: for every resolved branch name and every allow/deny pattern list of
valid regexes, the program exits with code 0 and prints the confirmation
message (which includes the branch name) if and only if the name
prefix-matches at least one allow pattern and prefix-matches none of the deny
patterns; in every other case the exit code is 1. -/
theorem C1_valid_iff_allow_and_not_deny (compile : String → Option Regex)
    (argv : List String) (e : Env) (w : GitWorld) (a d : Option (List String)) (b : String)
    (hp : parseArgs argv = .ok a d)
    (hres : (resolveBranch e w).1 = .ok b)
    (hva : ∀ s ∈ pyOr a DEFAULT_ALLOWED_PATTERNS, (compile s).isSome = true)
    (hvd : ∀ s ∈ pyOr d DEFAULT_DENIED_PATTERNS, (compile s).isSome = true) :
    ((main compile argv e w).1 = .exit 0 (validMsg b) ↔
      (((pyOr a DEFAULT_ALLOWED_PATTERNS).any fun s => patMatch (Pattern.mk s (compile s)) b) = true ∧
       ((pyOr d DEFAULT_DENIED_PATTERNS).any fun s => patMatch (Pattern.mk s (compile s)) b) = false))
    ∧ (¬ ((((pyOr a DEFAULT_ALLOWED_PATTERNS).any fun s => patMatch (Pattern.mk s (compile s)) b) = true) ∧
          (((pyOr d DEFAULT_DENIED_PATTERNS).any fun s => patMatch (Pattern.mk s (compile s)) b) = false)) →
        ∃ m, (main compile argv e w).1 = .exit 1 m) := by
  have hmain := main_resolved compile argv e w a d b hp hres
  rw [checkPhase_spec _ _ b (compiledPatterns_valid compile _ hva)
    (compiledPatterns_valid compile _ hvd), compiledPatterns_any, compiledPatterns_any] at hmain
  rw [hmain]
  cases h1 : (pyOr a DEFAULT_ALLOWED_PATTERNS).any fun s => patMatch (Pattern.mk s (compile s)) b with
  | false => simp [h1]
  | true =>
    cases h2 : (pyOr d DEFAULT_DENIED_PATTERNS).any fun s => patMatch (Pattern.mk s (compile s)) b with
    | false => simp [h1, h2]
    | true => simp [h1, h2]

/-- C1 witness: with defaults, CI branch `feature/login-page` passes: exit 0
with the confirmation message. -/
theorem C1_witness :
    (main defaultCompile [] ⟨some "feature/login-page", none, none⟩
      ⟨true, some "other", none⟩).1 = .exit 0 (validMsg "feature/login-page") :=
  (C1_valid_iff_allow_and_not_deny defaultCompile [] ⟨some "feature/login-page", none, none⟩
    ⟨true, some "other", none⟩ none none "feature/login-page"
    rfl rfl (by decide) (by decide)).1.mpr ⟨by decide, by decide⟩

/-- C2: a resolved branch name that prefix-matches no allow pattern is
reported with the NotAllowed message (branch name plus the full allow pattern
list) and exit code 1, whatever the deny list contains — `d`, and the
compilation results of the deny strings, are completely unconstrained here,
so this covers deny lists with unparseable regexes; no deny pattern is
evaluated. -/
theorem C2_not_allowed_ignores_deny (compile : String → Option Regex)
    (argv : List String) (e : Env) (w : GitWorld) (a d : Option (List String)) (b : String)
    (hp : parseArgs argv = .ok a d)
    (hres : (resolveBranch e w).1 = .ok b)
    (hva : ∀ s ∈ pyOr a DEFAULT_ALLOWED_PATTERNS, (compile s).isSome = true)
    (hnm : ∀ s ∈ pyOr a DEFAULT_ALLOWED_PATTERNS, patMatch (Pattern.mk s (compile s)) b = false) :
    (main compile argv e w).1 =
      .exit 1 (notAllowedMsg b (compiledPatterns compile (pyOr a DEFAULT_ALLOWED_PATTERNS))) := by
  have hmain := main_resolved compile argv e w a d b hp hres
  have hany : ((compiledPatterns compile (pyOr a DEFAULT_ALLOWED_PATTERNS)).any
      fun p => patMatch p b) = false := by
    rw [compiledPatterns_any, List.any_eq_false]
    intro s hs
    simp [hnm s hs]
  have hallow : anyREMatch (compiledPatterns compile (pyOr a DEFAULT_ALLOWED_PATTERNS)) b =
      .ok false := by
    rw [anyREMatch_eq_ok b _ (compiledPatterns_valid compile _ hva), hany]
  rw [hmain]
  show checkPhase _ _ b = _
  unfold checkPhase
  rw [hallow]

/-- C2 witness: branch `random-name` with the default allow set and a deny
list holding an unparseable regex (`defaultCompile "(" = none`): NotAllowed,
exit 1, message carrying the branch name and the full allow list. -/
theorem C2_witness :
    (main defaultCompile ["-d", "("] ⟨some "random-name", none, none⟩
      ⟨true, some "other", none⟩).1 =
      .exit 1 (notAllowedMsg "random-name"
        (compiledPatterns defaultCompile DEFAULT_ALLOWED_PATTERNS)) :=
  C2_not_allowed_ignores_deny defaultCompile ["-d", "("] ⟨some "random-name", none, none⟩
    ⟨true, some "other", none⟩ none (some ["("]) "random-name"
    (by decide) rfl (by decide) (by decide)

/-- C3: when some CI variable holds a non-empty value, the resolved branch
name is exactly `get_forge_branch e` (the first non-empty CI value) and no
git command is attempted, whatever the local git state `w` would say; local
git resolution (`get_branch_name`) is consulted exactly when every CI
variable is absent or empty. -/
theorem C3_ci_precedence (e : Env) (w : GitWorld) :
    (get_forge_branch e ≠ "" → resolveBranch e w = (.ok (get_forge_branch e), []))
    ∧ (get_forge_branch e = "" → resolveBranch e w = get_branch_name w) := by
  constructor
  · intro h
    simp [resolveBranch, h]
  · intro h
    simp [resolveBranch, h]

/-- C3 witness: CI says `hotfix/urgent-fix` while local git would resolve to
`unrelated`; the CI value wins and no git command runs. -/
theorem C3_witness :
    resolveBranch ⟨some "hotfix/urgent-fix", none, none⟩ ⟨true, some "unrelated", none⟩ =
      (.ok "hotfix/urgent-fix", []) :=
  (C3_ci_precedence ⟨some "hotfix/urgent-fix", none, none⟩ ⟨true, some "unrelated", none⟩).1
    (by decide)

lemma hasStart_append_cons (x rest : List Char) :
    hasStart (x ++ '/' :: rest) (x ++ ['/']) = true := by
  have h := hasStart_append (x ++ ['/']) rest
  rwa [List.append_assoc, List.singleton_append] at h

/-- C4: in the detached-HEAD fallback, a reverse-resolved ref name of the form
`remotes/<second>/<rest>` or `refs/<second>/<rest>` has exactly its first two
slash-separated segments stripped, leaving the bare branch name `<rest>`
(which may itself contain slashes, e.g. `refs/heads/feature/x` resolves to
`feature/x` — see the witness). -/
theorem C4_strip_exactly_two_segments (w : GitWorld) (a b c : String)
    (hgit : w.gitAvailable = true) (hsym : w.symbolicRef = none)
    (ha : a = "remotes" ∨ a = "refs")
    (hnr : w.nameRev = some (a ++ "/" ++ b ++ "/" ++ c))
    (hb : '/' ∉ b.data) (hc : c ≠ "") :
    (get_branch_name w).1 = .ok c := by
  have hadata : '/' ∉ a.data := by rcases ha with h | h <;> subst h <;> decide
  have hdrop : dropTwoSegments (a ++ "/" ++ b ++ "/" ++ c) = c :=
    dropTwoSegments_eq a b c hadata hb
  rcases ha with rfl | rfl
  all_goals
    (simp +decide [get_branch_name, hasStart, hgit, hsym, hnr]
     simp at hdrop
     simp [hdrop, hc])

/-- C4 witness: `refs/heads/feature/x` resolves to `feature/x`. -/
theorem C4_witness :
    (get_branch_name ⟨true, none, some "refs/heads/feature/x"⟩).1 = .ok "feature/x" :=
  C4_strip_exactly_two_segments ⟨true, none, some "refs/heads/feature/x"⟩ "refs" "heads"
    "feature/x" rfl rfl (Or.inr rfl) (by decide) (by decide) (by decide)

/-- C5 (code bug): when nothing resolves a branch name the program does not
always print a one-line diagnostic and exit 1.  With no CI variables, a
failing `symbolic-ref` and a `name-rev` output that starts with neither
`remotes/` nor `refs/` (e.g. `undefined`), the local `branch_name` is never
assigned and line 69 raises an unhandled `UnboundLocalError` (first
conjunct); a successful `symbolic-ref` with empty output likewise crashes,
line 70's f-string reading the unassigned `ref_name` (second conjunct).  Only
when both git commands fail does the promised one-line `RuntimeError`
diagnostic with exit code 1 appear (third conjunct). -/
theorem C5_resolution_failure_behavior :
    (main defaultCompile [] envEmpty ⟨true, none, some "undefined"⟩).1 = .crash .unboundLocal
    ∧ (main defaultCompile [] envEmpty ⟨true, some "", none⟩).1 = .crash .unboundLocal
    ∧ (main defaultCompile [] envEmpty ⟨true, none, none⟩).1 =
        .exit 1 "Error: failed to determine the branch name. Are you in a git repository?" := by
  decide

/-- C6: with zero `--allow` occurrences (`a = none`) the allow set is exactly
the built-in two-pattern conventional-branch list, with zero `--deny` the
deny set is empty, and when at least one occurrence was given (`a = some l`,
which the parser only produces for nonempty `l`) the supplied patterns
replace the default set entirely; the last conjunct shows two `-a` values are
collected in the order given. -/
theorem C6_default_pattern_sets (argv : List String) (a d : Option (List String))
    (h : parseArgs argv = .ok a d) :
    (a = none → pyOr a DEFAULT_ALLOWED_PATTERNS =
      ["^(feature|bugfix|hotfix|release|chore)/[a-z0-9/.-]*[a-z0-9]$",
       "^(main|master|develop)$"])
    ∧ (d = none → pyOr d DEFAULT_DENIED_PATTERNS = [])
    ∧ (∀ l, a = some l → pyOr a DEFAULT_ALLOWED_PATTERNS = l)
    ∧ (∀ l, d = some l → pyOr d DEFAULT_DENIED_PATTERNS = l)
    ∧ (∀ v1 v2 : String, hasStart v1.data ['-'] = false → hasStart v2.data ['-'] = false →
        parseArgs ["-a", v1, "-a", v2] = .ok (some [v1, v2]) none) := by
  obtain ⟨hane, hdne⟩ := parseArgs_some_ne_nil argv a d h
  refine ⟨?_, ?_, ?_, ?_, ?_⟩
  · intro h'
    subst h'
    rfl
  · intro h'
    subst h'
    rfl
  · intro l hl
    subst hl
    simp [pyOr, hane l rfl]
  · intro l hl
    subst hl
    simp [pyOr, hdne l rfl]
  · intro v1 v2 h1 h2
    simp +decide [parseArgs, parseArgsAux, appendArg, h1, h2]

/-- C6 witness: `[]` gives the default sets; one `-a` replaces the allow set. -/
theorem C6_witness :
    pyOr (some ["^x"]) DEFAULT_ALLOWED_PATTERNS = ["^x"] ∧
    pyOr (none : Option (List String)) DEFAULT_DENIED_PATTERNS = [] := by
  have h := C6_default_pattern_sets ["-a", "^x"] (some ["^x"]) none (by decide)
  exact ⟨h.2.2.1 ["^x"] rfl, h.2.1 rfl⟩

/-- C7 counterexample: the claim — an invalid regex in either list is
reported and causes a non-zero exit before any git interaction — is false.
First conjunct: with an unparseable second allow pattern (`(` does not
compile) the program exits 0, because the first allow pattern matches and the
short-circuiting `any` never reaches the invalid one; nothing is reported.
Second conjunct: when the invalid pattern is reached, the crash happens after
a git command already ran (trace `[symbolicRef]`), not before git
interaction. -/
theorem C7_counterexample :
    (main (fun s => if s = "^(main|master|develop)$" then some mainBranchRegex else none)
        ["-a", "^(main|master|develop)$", "-a", "("] ⟨some "main", none, none⟩
        ⟨true, none, none⟩).1 = .exit 0 (validMsg "main")
    ∧ main defaultCompile ["-a", "("] envEmpty ⟨true, some "main", none⟩ =
        (.crash .reError, [.symbolicRef]) := by
  decide

/-- C7 (amended): an invalid regex is not validated up front; it raises an
uncaught `re.error` (crashing the run with a non-zero interpreter exit) only
when pattern evaluation reaches it — here: every allow pattern before it
compiles and fails to match — and this happens only after branch resolution,
the git trace being whatever resolution produced (second conjunct), never
before git interaction. -/
theorem C7_invalid_regex_lazy (compile : String → Option Regex) (argv : List String)
    (e : Env) (w : GitWorld) (a d : Option (List String)) (b : String)
    (pre post : List String) (sBad : String)
    (hp : parseArgs argv = .ok a d)
    (hres : (resolveBranch e w).1 = .ok b)
    (hsplit : pyOr a DEFAULT_ALLOWED_PATTERNS = pre ++ sBad :: post)
    (hbad : compile sBad = none)
    (hpre : ∀ s ∈ pre, (compile s).isSome = true ∧ patMatch (Pattern.mk s (compile s)) b = false) :
    (main compile argv e w).1 = .crash .reError
    ∧ (main compile argv e w).2 = (resolveBranch e w).2 := by
  have hmain := main_resolved compile argv e w a d b hp hres
  have hanyerr : anyREMatch (compiledPatterns compile (pyOr a DEFAULT_ALLOWED_PATTERNS)) b =
      .error .reError := by
    rw [hsplit]
    have hsplit2 : compiledPatterns compile (pre ++ sBad :: post) =
        compiledPatterns compile pre ++
          Pattern.mk sBad (compile sBad) :: compiledPatterns compile post := by
      simp [compiledPatterns]
    rw [hsplit2]
    apply anyREMatch_reaches_invalid
    · exact hbad
    · intro p hp'
      obtain ⟨s, hs, rfl⟩ := List.mem_map.mp hp'
      exact hpre s hs
  rw [hmain]
  refine ⟨?_, rfl⟩
  show checkPhase _ _ b = _
  unfold checkPhase
  rw [hanyerr]

/-- C7 witness: one unparseable allow pattern, branch resolved via git to
`main`: the run crashes with `re.error`. -/
theorem C7_witness :
    (main defaultCompile ["-a", "("] envEmpty ⟨true, some "main", none⟩).1 = .crash .reError :=
  (C7_invalid_regex_lazy defaultCompile ["-a", "("] envEmpty ⟨true, some "main", none⟩
    (some ["("]) none "main" [] [] "(" (by decide) rfl rfl rfl (by simp)).1

/-- C8 counterexample: an unknown flag makes `argparse` exit with status 2,
not 1, so "the exit code is 1 on any failure" is false for malformed CLI
input (the parenthetical "non-zero" holds, and no git command runs). -/
theorem C8_counterexample :
    exitStatus (main defaultCompile ["--bogus"] envEmpty ⟨true, some "main", none⟩).1 = 2
    ∧ exitStatus (main defaultCompile ["--bogus"] envEmpty ⟨true, some "main", none⟩).1 ≠ 1
    ∧ (main defaultCompile ["--bogus"] envEmpty ⟨true, some "main", none⟩).2 = [] := by
  decide

/-- C8 (amended): the exit status is 0 on success and 1 on runtime failures —
a `RuntimeError` diagnostic from resolution, a missing git executable (an
unhandled `FileNotFoundError`, interpreter status 1), no allow match, or a
deny match — while malformed CLI input is a usage error with exit status 2,
still non-zero and issued before any git interaction (empty git trace). -/
theorem C8_exit_code_classification (compile : String → Option Regex) (argv : List String)
    (e : Env) (w : GitWorld) (a d : Option (List String)) (b m : String) :
    (parseArgs argv = .usageError m →
      exitStatus (main compile argv e w).1 = 2 ∧ (main compile argv e w).2 = [])
    ∧ (parseArgs argv = .ok a d → ∀ msg, (resolveBranch e w).1 = .error (.runtimeError msg) →
        (main compile argv e w).1 = .exit 1 msg)
    ∧ (parseArgs argv = .ok a d → (resolveBranch e w).1 = .error .fileNotFound →
        exitStatus (main compile argv e w).1 = 1)
    ∧ (parseArgs argv = .ok a d → (resolveBranch e w).1 = .ok b →
        (∀ s ∈ pyOr a DEFAULT_ALLOWED_PATTERNS, (compile s).isSome = true) →
        (∀ s ∈ pyOr d DEFAULT_DENIED_PATTERNS, (compile s).isSome = true) →
        ((exitStatus (main compile argv e w).1 = 0 ↔
          (((pyOr a DEFAULT_ALLOWED_PATTERNS).any fun s => patMatch (Pattern.mk s (compile s)) b) = true ∧
           ((pyOr d DEFAULT_DENIED_PATTERNS).any fun s => patMatch (Pattern.mk s (compile s)) b) = false))
         ∧ (exitStatus (main compile argv e w).1 = 0 ∨
            exitStatus (main compile argv e w).1 = 1))) := by
  refine ⟨?_, ?_, ?_, ?_⟩
  · intro hp
    rw [main_usage compile argv e w m hp]
    exact ⟨rfl, rfl⟩
  · intro hp msg hres
    rw [main_parse_ok compile argv e w a d hp, hres]
  · intro hp hres
    rw [main_parse_ok compile argv e w a d hp, hres]
    rfl
  · intro hp hres hva hvd
    have hmain := main_resolved compile argv e w a d b hp hres
    rw [checkPhase_spec _ _ b (compiledPatterns_valid compile _ hva)
      (compiledPatterns_valid compile _ hvd), compiledPatterns_any, compiledPatterns_any] at hmain
    rw [hmain]
    cases h1 : (pyOr a DEFAULT_ALLOWED_PATTERNS).any fun s => patMatch (Pattern.mk s (compile s)) b with
    | false => simp [h1, exitStatus]
    | true =>
      cases h2 : (pyOr d DEFAULT_DENIED_PATTERNS).any fun s => patMatch (Pattern.mk s (compile s)) b with
      | false => simp [h1, h2, exitStatus]
      | true => simp [h1, h2, exitStatus]

/-- C8 witness: an unknown flag exits with status 2 and no git command runs. -/
theorem C8_witness :
    exitStatus (main defaultCompile ["--bogus"] envEmpty ⟨false, none, none⟩).1 = 2 ∧
    (main defaultCompile ["--bogus"] envEmpty ⟨false, none, none⟩).2 = [] :=
  (C8_exit_code_classification defaultCompile ["--bogus"] envEmpty ⟨false, none, none⟩
    none none "b" "unrecognized arguments: --bogus").1 (by decide)

/-- C9 (code bug): with no CI variables and the git executable missing, the
`FileNotFoundError` raised by `subprocess` is caught nowhere (only
`CalledProcessError` and `RuntimeError` are handled), so the run ends in an
unhandled exception — the interpreter prints a traceback, not a one-line
message — with exit status 1. -/
theorem C9_git_missing_uncaught :
    main defaultCompile [] envEmpty ⟨false, none, none⟩ = (.crash .fileNotFound, [.symbolicRef])
    ∧ exitStatus (Outcome.crash .fileNotFound) = 1 := by
  decide

/-- C10: the CI variables are consulted in the order GITHUB_HEAD_REF,
CI_MERGE_REQUEST_SOURCE_BRANCH_NAME, BITBUCKET_BRANCH; the first non-empty
value wins regardless of later variables; a variable set to the empty string
is skipped exactly like an unset one; and when some variable is non-empty no
git command is attempted (empty trace) and the resolution result does not
depend on the git world at all. -/
theorem C10_ci_order_and_no_git (e : Env) (w : GitWorld) :
    (∀ g, e.GITHUB_HEAD_REF = some g → g ≠ "" → get_forge_branch e = g)
    ∧ (∀ g, (e.GITHUB_HEAD_REF = none ∨ e.GITHUB_HEAD_REF = some "") →
        e.CI_MERGE_REQUEST_SOURCE_BRANCH_NAME = some g → g ≠ "" → get_forge_branch e = g)
    ∧ (∀ g, (e.GITHUB_HEAD_REF = none ∨ e.GITHUB_HEAD_REF = some "") →
        (e.CI_MERGE_REQUEST_SOURCE_BRANCH_NAME = none ∨
         e.CI_MERGE_REQUEST_SOURCE_BRANCH_NAME = some "") →
        e.BITBUCKET_BRANCH = some g → g ≠ "" → get_forge_branch e = g)
    ∧ (get_forge_branch e ≠ "" → (resolveBranch e w).2 = [] ∧
        ∀ w', resolveBranch e w = resolveBranch e w') := by
  obtain ⟨gh, gl, bb⟩ := e
  refine ⟨?_, ?_, ?_, ?_⟩
  · rintro g rfl hg
    simp [get_forge_branch, firstNonEmpty, hg]
  · rintro g (rfl | rfl) rfl hg <;> simp [get_forge_branch, firstNonEmpty, hg]
  · rintro g (rfl | rfl) (rfl | rfl) rfl hg <;> simp [get_forge_branch, firstNonEmpty, hg]
  · intro h
    exact ⟨by simp [resolveBranch, h], fun w' => by simp [resolveBranch, h]⟩

/-- C10 witness: GITHUB_HEAD_REF set to the empty string is skipped, the
GitLab variable wins over the Bitbucket one, and no git command runs. -/
theorem C10_witness :
    get_forge_branch ⟨some "", some "mr-source", some "bb-branch"⟩ = "mr-source" ∧
    (resolveBranch ⟨some "", some "mr-source", some "bb-branch"⟩ ⟨false, none, none⟩).2 = [] := by
  have h := C10_ci_order_and_no_git ⟨some "", some "mr-source", some "bb-branch"⟩
    ⟨false, none, none⟩
  exact ⟨h.2.1 "mr-source" (Or.inr rfl) rfl (by decide), (h.2.2.2 (by decide)).1⟩

end BranchCheck
